import Mathlib

/-!
Shallow embedding of the anomaly-rule controller
(`controllers/anomalyController.js`, routed by `routes/organizationRoutes.js`).

The durable store (Sequelize models `Camera`, `Anomaly` and their
many-to-many join table) is modelled as an explicit `DB` state record;
each HTTP handler becomes a function `DB → ... → Result × DB`.
Request-body fields are `Option`-typed: `none` models an absent or `null`
JSON field.  JavaScript truthiness is modelled where the code uses it:
`!s` on a string field is true for absent, null and the empty string;
`!xs` on an array field is true only for absent/null (an empty array is
truthy in JavaScript).
-/

/-- JS falsiness of an optional string field: `!x` is `true` for
`undefined`, `null` and `""`. -/
def strFalsy : Option String → Bool
  | none => true
  | some s => s = ""

/-- Modelled from the spec: the constant `DAYS_OF_WEEK` lives in
`constants/days.js`, which is not part of the provided sources.  The spec
fixes the weekday domain as the 7-value set Sun..Sat. -/
def DAYS_OF_WEEK : List String :=
  ["Sun", "Mon", "Tue", "Wed", "Thu", "Fri", "Sat"]

/-- A stored `Camera` row.  `cameraId`, `location`, `ipAddress` and
`cameraType` appear in the controller source; `organizationId` is the
tenant foreign key it filters on.  `status` models the camera's
online/offline attribute described in the spec (the `Camera` model file
is not under the provided sources); it exists only so that we can state
that list output does not depend on it. -/
structure Camera where
  cameraId : Nat
  organizationId : Nat
  location : String
  ipAddress : String
  cameraType : String
  status : String
deriving DecidableEq

/-- The attribute subset `['cameraId', 'location', 'ipAddress', 'cameraType']`
selected by `getAllAnomalies` for included cameras. -/
structure CameraPublic where
  cameraId : Nat
  location : String
  ipAddress : String
  cameraType : String
deriving DecidableEq

/-- Projection of a camera row onto the selected attribute subset. -/
def Camera.publicView (c : Camera) : CameraPublic :=
  { cameraId := c.cameraId, location := c.location,
    ipAddress := c.ipAddress, cameraType := c.cameraType }

/-- A stored `Anomaly` (anomaly-detection rule) row, with the columns the
controller reads and writes.  `criticality` and `status` are nullable
(`Anomaly.create` is called without `status`, and `criticality` is not a
required field). -/
structure Anomaly where
  anomalyId : Nat
  title : String
  description : String
  criticality : Option String
  modelName : String
  organizationId : Nat
  startTime : String
  endTime : String
  daysOfWeek : List String
  status : Option String
deriving DecidableEq

/-- The durable store: camera rows, anomaly rows, the rule-to-camera join
table (pairs `(anomalyId, cameraId)`), and the next primary key the store
will assign to a created anomaly. -/
structure DB where
  cameras : List Camera
  anomalies : List Anomaly
  assocs : List (Nat × Nat)
  nextAnomalyId : Nat
deriving DecidableEq

/-- Store well-formedness: primary keys are unique, every existing rule's
key is below the next key the store will assign, and every join row
references an existing rule. -/
def DB.wf (db : DB) : Bool :=
  decide (db.cameras.map Camera.cameraId).Nodup &&
  decide (db.anomalies.map Anomaly.anomalyId).Nodup &&
  db.anomalies.all (fun a => a.anomalyId < db.nextAnomalyId) &&
  db.assocs.all (fun p => db.anomalies.any (fun a => a.anomalyId = p.1))

/-- Embedding of the query `Camera.findAll` with an `Op.in` filter on `cameraId` and an `organizationId` filter:
all camera rows whose key is among `cameraIds` and whose organization
matches. -/
def findCameras (db : DB) (organizationId : Nat) (cameraIds : List Nat) : List Camera :=
  db.cameras.filter (fun c => decide (c.cameraId ∈ cameraIds ∧ c.organizationId = organizationId))

/-- Embedding of `anomaly.setCameras(cameras)`: wholesale replacement of the rule's
join rows with one row per given camera. -/
def setCameras (db : DB) (anomalyId : Nat) (cameras : List Camera) : DB :=
  { db with assocs := db.assocs.filter (fun p => decide (p.1 ≠ anomalyId))
        ++ cameras.map (fun c => (anomalyId, c.cameraId)) }

/-- The camera rows associated with a rule (what `include: [{ model: Camera }]`
attaches). -/
def includeCameras (db : DB) (anomalyId : Nat) : List Camera :=
  db.cameras.filter (fun c => decide ((anomalyId, c.cameraId) ∈ db.assocs))

/-- The camera keys currently associated with a rule, straight from the
join table. -/
def camIdsOf (db : DB) (anomalyId : Nat) : List Nat :=
  (db.assocs.filter (fun p => decide (p.1 = anomalyId))).map Prod.snd

/-- Embedding of `Anomaly.findByPk` with the associated cameras included. -/
def findByPk (db : DB) (anomalyId : Nat) : Option (Anomaly × List Camera) :=
  (db.anomalies.find? (fun a => decide (a.anomalyId = anomalyId))).map
    (fun a => (a, includeCameras db a.anomalyId))

/-- Embedding of `Anomaly.findOne` filtered by `anomalyId` and `organizationId`. -/
def findRuleOrg (db : DB) (organizationId anomalyId : Nat) : Option Anomaly :=
  db.anomalies.find? (fun a => decide (a.anomalyId = anomalyId ∧ a.organizationId = organizationId))

/-- The rules a camera is associated with (derived from the join table);
used to state the post-deletion property. -/
def rulesForCamera (db : DB) (cameraId : Nat) : List Anomaly :=
  db.anomalies.filter (fun a => decide ((a.anomalyId, cameraId) ∈ db.assocs))

/-- The request body of `POST /:orgId/anomaly` (fields destructured by
`addAnomaly`).  `none` = absent or null. -/
structure AddBody where
  title : Option String
  description : Option String
  criticality : Option String
  modelName : Option String
  cameraIds : Option (List Nat)
  startTime : Option String
  endTime : Option String
  daysOfWeek : Option (List String)
deriving DecidableEq

/-- Outcome of `addAnomaly`, one constructor per `return` site. -/
inductive AddResult where
  | missingFields : AddResult
  | emptyCameraIds : AddResult
  | invalidDayValues : AddResult
  | camerasNotFound : AddResult
  | created : Option (Anomaly × List Camera) → AddResult
deriving DecidableEq

/-- The HTTP status each `addAnomaly` outcome is sent with. -/
def AddResult.statusCode : AddResult → Nat
  | .missingFields => 400
  | .emptyCameraIds => 400
  | .invalidDayValues => 400
  | .camerasNotFound => 404
  | .created _ => 201

/-- The required-field guard
`!title || !description || !modelName || !cameraIds || !startTime || !endTime || !daysOfWeek`.
String fields use JS string falsiness; array fields are falsy only when
absent/null (arrays, even empty, are truthy). -/
def missingRequired (b : AddBody) : Bool :=
  strFalsy b.title || strFalsy b.description || strFalsy b.modelName ||
  b.cameraIds.isNone || strFalsy b.startTime || strFalsy b.endTime ||
  b.daysOfWeek.isNone

/-- Embedding of `daysOfWeek.every(day => DAYS_OF_WEEK.includes(day))`. -/
def daysValid (days : List String) : Bool :=
  days.all (fun d => decide (d ∈ DAYS_OF_WEEK))

/-- Embedding of `addAnomaly` (`POST /:orgId/anomaly`): validate required fields, the
camera-id array shape, and the weekday domain; resolve the requested
cameras scoped to the organization; on count match create the rule row,
bind the cameras, and re-fetch the rule with its cameras. -/
def addAnomaly (db : DB) (organizationId : Nat) (b : AddBody) : AddResult × DB :=
  if missingRequired b then
    (.missingFields, db)
  else
    let cameraIds := b.cameraIds.getD []
    let daysOfWeek := b.daysOfWeek.getD []
    if cameraIds.length = 0 then
      (.emptyCameraIds, db)
    else if ¬ daysValid daysOfWeek then
      (.invalidDayValues, db)
    else
      let cameras := findCameras db organizationId cameraIds
      if cameras.length ≠ cameraIds.length then
        (.camerasNotFound, db)
      else
        let anomaly : Anomaly :=
          { anomalyId := db.nextAnomalyId,
            title := b.title.getD "",
            description := b.description.getD "",
            criticality := b.criticality,
            modelName := b.modelName.getD "",
            organizationId := organizationId,
            startTime := b.startTime.getD "",
            endTime := b.endTime.getD "",
            daysOfWeek := daysOfWeek,
            status := none }
        let db1 : DB :=
          { db with anomalies := db.anomalies ++ [anomaly],
                    nextAnomalyId := db.nextAnomalyId + 1 }
        let db2 := setCameras db1 anomaly.anomalyId cameras
        (.created (findByPk db2 anomaly.anomalyId), db2)

/-- Embedding of `getAllAnomalies` (`GET /:orgId/anomalies`): all of the tenant's
rules, each with its associated cameras projected to the selected
attribute subset. -/
def getAllAnomalies (db : DB) (organizationId : Nat) :
    List (Anomaly × List CameraPublic) :=
  (db.anomalies.filter (fun a => decide (a.organizationId = organizationId))).map
    (fun a => (a, (includeCameras db a.anomalyId).map Camera.publicView))

/-- The request body of `PUT /:orgId/anomaly/:anomalyId` (fields
destructured by `updateAnomaly`).  The schedule fields `startTime`,
`endTime` and `daysOfWeek` can be present in the JSON body but the
handler never destructures them; they are carried here so that we can
state that the handler ignores them. -/
structure UpdateBody where
  title : Option String
  description : Option String
  criticality : Option String
  modelName : Option String
  status : Option String
  cameraIds : Option (List Nat)
  startTime : Option String
  endTime : Option String
  daysOfWeek : Option (List String)
deriving DecidableEq

/-- Outcome of `updateAnomaly`, one constructor per `return` site. -/
inductive UpdateResult where
  | notFound : UpdateResult
  | camerasNotFound : UpdateResult
  | updated : Option (Anomaly × List Camera) → UpdateResult
deriving DecidableEq

/-- The HTTP status each `updateAnomaly` outcome is sent with. -/
def UpdateResult.statusCode : UpdateResult → Nat
  | .notFound => 404
  | .camerasNotFound => 404
  | .updated _ => 200

/-- The field merge performed by the `anomaly.field = value ?? anomaly.field`
assignments: a supplied (non-nullish) value overwrites, an absent/null one
keeps the stored value. -/
def mergeAnomaly (a : Anomaly) (b : UpdateBody) : Anomaly :=
  { a with
    title := b.title.getD a.title,
    description := b.description.getD a.description,
    criticality := match b.criticality with
      | some c => some c
      | none => a.criticality,
    modelName := b.modelName.getD a.modelName,
    status := match b.status with
      | some s => some s
      | none => a.status }

/-- Embedding of `anomaly.save()`: write the merged row back under its primary key. -/
def saveAnomaly (db : DB) (anomalyId : Nat) (merged : Anomaly) : DB :=
  { db with anomalies :=
      db.anomalies.map (fun x => if x.anomalyId = anomalyId then merged else x) }

/-- Embedding of `updateAnomaly` (`PUT /:orgId/anomaly/:anomalyId`): resolve the rule
scoped to the organization; if `cameraIds` is supplied (truthy), resolve
and on count match rebind the camera set; merge the supplied scalar
fields; save; re-fetch with cameras. -/
def updateAnomaly (db : DB) (organizationId anomalyId : Nat) (b : UpdateBody) :
    UpdateResult × DB :=
  match findRuleOrg db organizationId anomalyId with
  | none => (.notFound, db)
  | some anomaly =>
    match b.cameraIds with
    | some cameraIds =>
      let cameras := findCameras db organizationId cameraIds
      if cameras.length ≠ cameraIds.length then
        (.camerasNotFound, db)
      else
        let db1 := setCameras db anomalyId cameras
        let db2 := saveAnomaly db1 anomalyId (mergeAnomaly anomaly b)
        (.updated (findByPk db2 anomalyId), db2)
    | none =>
      let db2 := saveAnomaly db anomalyId (mergeAnomaly anomaly b)
      (.updated (findByPk db2 anomalyId), db2)

/-- Outcome of `deleteAnomaly`. -/
inductive DeleteResult where
  | notFound : DeleteResult
  | deleted : DeleteResult
deriving DecidableEq

/-- The HTTP status each `deleteAnomaly` outcome is sent with. -/
def DeleteResult.statusCode : DeleteResult → Nat
  | .notFound => 404
  | .deleted => 200

/-- First phase of deletion, `anomaly.setCameras([])`: clear the rule's
join rows while the rule row still exists. -/
def deleteUnbind (db : DB) (anomalyId : Nat) : DB :=
  setCameras db anomalyId []

/-- Second phase of deletion, `anomaly.destroy()`: remove the rule row by
primary key. -/
def deleteDestroy (db : DB) (anomalyId : Nat) : DB :=
  { db with anomalies := db.anomalies.filter (fun x => decide (x.anomalyId ≠ anomalyId)) }

/-- Embedding of `deleteAnomaly` (`DELETE /:orgId/anomaly/:anomalyId`): resolve the
rule scoped to the organization, clear its camera associations, then
destroy the rule row — in that order. -/
def deleteAnomaly (db : DB) (organizationId anomalyId : Nat) : DeleteResult × DB :=
  match findRuleOrg db organizationId anomalyId with
  | none => (.notFound, db)
  | some anomaly =>
    (.deleted, deleteDestroy (deleteUnbind db anomaly.anomalyId) anomaly.anomalyId)

/-! ### Concrete store fixtures used as evaluation witnesses -/

/-- A camera owned by organization 7. -/
def wCam1 : Camera :=
  { cameraId := 1, organizationId := 7, location := "lobby",
    ipAddress := "10.0.0.1", cameraType := "dome", status := "online" }

/-- A second camera owned by organization 7. -/
def wCam2 : Camera :=
  { cameraId := 2, organizationId := 7, location := "gate",
    ipAddress := "10.0.0.2", cameraType := "ptz", status := "offline" }

/-- A camera owned by a different organization (3). -/
def wCam99 : Camera :=
  { cameraId := 99, organizationId := 3, location := "vault",
    ipAddress := "10.9.9.9", cameraType := "dome", status := "online" }

/-- An existing rule of organization 7, associated with camera 1. -/
def wRule : Anomaly :=
  { anomalyId := 5, title := "old", description := "desc",
    criticality := some "low", modelName := "m1", organizationId := 7,
    startTime := "08:00", endTime := "17:00", daysOfWeek := ["Mon"],
    status := none }

/-- A small well-formed store: three cameras across two organizations and
one existing rule bound to camera 1. -/
def wDB : DB :=
  { cameras := [wCam1, wCam2, wCam99], anomalies := [wRule],
    assocs := [(5, 1)], nextAnomalyId := 6 }

/-- A fully valid create request against `wDB` for organization 7. -/
def wAddBody : AddBody :=
  { title := some "t", description := some "d", criticality := some "high",
    modelName := some "m2", cameraIds := some [1, 2],
    startTime := some "08:00", endTime := some "17:00",
    daysOfWeek := some ["Mon", "Tue"] }

/-- The same create request with an overnight time window
(start after end, crossing midnight). -/
def wOvernightBody : AddBody :=
  { wAddBody with startTime := some "23:00", endTime := some "01:00" }

/-- An update request body with every field absent. -/
def wUpdNone : UpdateBody :=
  { title := none, description := none, criticality := none,
    modelName := none, status := none, cameraIds := none,
    startTime := none, endTime := none, daysOfWeek := none }

/-- The rule row `Anomaly.create` inserts on the successful create path
(abbreviation of the corresponding subterm of `addAnomaly`). -/
def newRuleOf (db : DB) (organizationId : Nat) (b : AddBody) : Anomaly :=
  { anomalyId := db.nextAnomalyId,
    title := b.title.getD "",
    description := b.description.getD "",
    criticality := b.criticality,
    modelName := b.modelName.getD "",
    organizationId := organizationId,
    startTime := b.startTime.getD "",
    endTime := b.endTime.getD "",
    daysOfWeek := b.daysOfWeek.getD [],
    status := none }

/-- The store after the successful create path: rule row inserted, next
key advanced, cameras bound (abbreviation of the corresponding subterm of
`addAnomaly`). -/
def createdDB (db : DB) (organizationId : Nat) (b : AddBody) : DB :=
  setCameras
    { db with anomalies := db.anomalies ++ [newRuleOf db organizationId b],
              nextAnomalyId := db.nextAnomalyId + 1 }
    db.nextAnomalyId
    (findCameras db organizationId (b.cameraIds.getD []))


/-! ### Basic store lemmas -/

theorem setCameras_cameras (db : DB) (aid : Nat) (cams : List Camera) :
    (setCameras db aid cams).cameras = db.cameras := rfl

theorem setCameras_anomalies (db : DB) (aid : Nat) (cams : List Camera) :
    (setCameras db aid cams).anomalies = db.anomalies := rfl

theorem saveAnomaly_cameras (db : DB) (aid : Nat) (m : Anomaly) :
    (saveAnomaly db aid m).cameras = db.cameras := rfl

theorem saveAnomaly_assocs (db : DB) (aid : Nat) (m : Anomaly) :
    (saveAnomaly db aid m).assocs = db.assocs := rfl

/-- Unpacking of the Boolean well-formedness predicate. -/
theorem wf_spec (db : DB) (h : db.wf = true) :
    (db.cameras.map Camera.cameraId).Nodup ∧
    (db.anomalies.map Anomaly.anomalyId).Nodup ∧
    (∀ a ∈ db.anomalies, a.anomalyId < db.nextAnomalyId) ∧
    (∀ p ∈ db.assocs, ∃ a ∈ db.anomalies, a.anomalyId = p.1) := by
  simp only [DB.wf, Bool.and_eq_true, List.all_eq_true, List.any_eq_true,
    decide_eq_true_eq] at h
  exact ⟨h.1.1.1, h.1.1.2, h.1.2, h.2⟩

/-- Membership characterization of the ownership-scoped camera query. -/
theorem mem_findCameras {db : DB} {org : Nat} {ids : List Nat} {c : Camera} :
    c ∈ findCameras db org ids ↔
      c ∈ db.cameras ∧ c.cameraId ∈ ids ∧ c.organizationId = org := by
  simp [findCameras, List.mem_filter, and_assoc]

/-- The resolved cameras are a sublist of the camera table. -/
theorem findCameras_sublist (db : DB) (org : Nat) (ids : List Nat) :
    (findCameras db org ids).Sublist db.cameras :=
  List.filter_sublist _

/-- With unique camera keys, the resolved cameras have pairwise-distinct keys. -/
theorem findCameras_map_nodup (db : DB) (org : Nat) (ids : List Nat)
    (hnd : (db.cameras.map Camera.cameraId).Nodup) :
    ((findCameras db org ids).map Camera.cameraId).Nodup :=
  ((findCameras_sublist db org ids).map Camera.cameraId).nodup hnd

/-- Every resolved camera key comes from the requested key list. -/
theorem findCameras_map_subset (db : DB) (org : Nat) (ids : List Nat) :
    ∀ x ∈ (findCameras db org ids).map Camera.cameraId, x ∈ ids := by
  intro x hx
  obtain ⟨c, hc, hcx⟩ := List.mem_map.mp hx
  exact hcx ▸ (mem_findCameras.mp hc).2.1

/-- With unique camera keys, the query returns at most one row per
distinct requested key. -/
theorem findCameras_length_le_dedup (db : DB) (org : Nat) (ids : List Nat)
    (hnd : (db.cameras.map Camera.cameraId).Nodup) :
    (findCameras db org ids).length ≤ ids.dedup.length := by
  have hsub : (findCameras db org ids).map Camera.cameraId ⊆ ids.dedup := by
    intro x hx
    exact List.mem_dedup.mpr (findCameras_map_subset db org ids x hx)
  have := ((findCameras_map_nodup db org ids hnd).subperm hsub).length_le
  simpa using this

/-- If some requested key resolves to no organization-owned camera, the
query returns strictly fewer rows than requested keys. -/
theorem findCameras_length_lt (db : DB) (org : Nat) (ids : List Nat) (x : Nat)
    (hnd : (db.cameras.map Camera.cameraId).Nodup)
    (hx : x ∈ ids)
    (hnores : ∀ c ∈ db.cameras, ¬ (c.cameraId = x ∧ c.organizationId = org)) :
    (findCameras db org ids).length < ids.length := by
  have hxnot : x ∉ (findCameras db org ids).map Camera.cameraId := by
    intro hmem
    obtain ⟨c, hc, hcx⟩ := List.mem_map.mp hmem
    obtain ⟨hcl, _, horg⟩ := mem_findCameras.mp hc
    exact hnores c hcl ⟨hcx, horg⟩
  have hnd2 : (x :: (findCameras db org ids).map Camera.cameraId).Nodup :=
    List.nodup_cons.mpr ⟨hxnot, findCameras_map_nodup db org ids hnd⟩
  have hsub : (x :: (findCameras db org ids).map Camera.cameraId) ⊆ ids := by
    intro y hy
    rcases List.mem_cons.mp hy with hy | hy
    · exact hy ▸ hx
    · exact findCameras_map_subset db org ids y hy
  have := (hnd2.subperm hsub).length_le
  simp only [List.length_cons, List.length_map] at this
  omega

/-- A list with a duplicate strictly shrinks under deduplication. -/
theorem dedup_length_lt_of_not_nodup (ids : List Nat) (h : ¬ ids.Nodup) :
    ids.dedup.length < ids.length := by
  rcases Nat.lt_or_ge ids.dedup.length ids.length with hlt | hge
  · exact hlt
  · exfalso
    have hle := ids.dedup_sublist.length_le
    have heq : ids.dedup = ids := ids.dedup_sublist.eq_of_length (Nat.le_antisymm hle hge)
    exact h (heq ▸ ids.nodup_dedup)

/-- With a duplicated requested key, the count check can never succeed. -/
theorem findCameras_length_ne_of_dup (db : DB) (org : Nat) (ids : List Nat)
    (hnd : (db.cameras.map Camera.cameraId).Nodup)
    (hdup : ¬ ids.Nodup) :
    (findCameras db org ids).length ≠ ids.length := by
  have h1 := findCameras_length_le_dedup db org ids hnd
  have h2 := dedup_length_lt_of_not_nodup ids hdup
  omega

/-- Join rows of the rebound rule are exactly one per given camera. -/
theorem mem_assocs_setCameras (db : DB) (aid x : Nat) (cams : List Camera) :
    (aid, x) ∈ (setCameras db aid cams).assocs ↔ x ∈ cams.map Camera.cameraId := by
  simp [setCameras, List.mem_filter, List.mem_append, List.mem_map]

/-- The join table after a rebind, restricted to the rebound rule, lists
exactly the given cameras in order. -/
theorem camIdsOf_setCameras (db : DB) (aid : Nat) (cams : List Camera) :
    camIdsOf (setCameras db aid cams) aid = cams.map Camera.cameraId := by
  unfold camIdsOf setCameras
  rw [List.filter_append, List.filter_filter]
  have h1 : (db.assocs.filter
      (fun p => decide (p.1 = aid) && decide (p.1 ≠ aid))) = [] := by
    rw [List.filter_eq_nil_iff]
    intro p _
    simp only [Bool.and_eq_true, decide_eq_true_eq]
    tauto
  have h2 : ((cams.map (fun c => (aid, c.cameraId))).filter
      (fun p => decide (p.1 = aid))) = cams.map (fun c => (aid, c.cameraId)) := by
    rw [List.filter_eq_self]
    intro p hp
    obtain ⟨c, _, hc⟩ := List.mem_map.mp hp
    simp [hc.symm]
  rw [h1, h2]
  simp [List.map_map, Function.comp]

/-- Filtering the camera table by membership of the key in an
already-filtered sub-table gives back that sub-table (unique keys). -/
theorem filter_mem_map_cameraId (l : List Camera) (p : Camera → Bool)
    (hnd : (l.map Camera.cameraId).Nodup) :
    (l.filter (fun c => decide (c.cameraId ∈ (l.filter p).map Camera.cameraId)))
      = l.filter p := by
  apply List.filter_congr
  intro c hc
  cases hpc : p c with
  | true =>
    have : c.cameraId ∈ (l.filter p).map Camera.cameraId :=
      List.mem_map.mpr ⟨c, List.mem_filter.mpr ⟨hc, hpc⟩, rfl⟩
    simp [this]
  | false =>
    simp only [decide_eq_false_iff_not]
    intro hmem
    obtain ⟨c2, hc2, hc2x⟩ := List.mem_map.mp hmem
    obtain ⟨hc2l, hpc2⟩ := List.mem_filter.mp hc2
    have : c2 = c := List.inj_on_of_nodup_map hnd hc2l hc hc2x
    rw [this] at hpc2
    exact absurd hpc2 (by simp [hpc])

/-- After rebinding a rule to the cameras resolved from a store with the
same camera table, the included camera rows of that rule are exactly the
resolved cameras. -/
theorem includeCameras_after_set (db0 db : DB) (org aid : Nat) (ids : List Nat)
    (hnd : (db0.cameras.map Camera.cameraId).Nodup)
    (hcam : db.cameras = db0.cameras) :
    includeCameras (setCameras db aid (findCameras db0 org ids)) aid
      = findCameras db0 org ids := by
  unfold includeCameras
  rw [setCameras_cameras, hcam]
  have hcongr : ∀ c ∈ db0.cameras,
      (decide ((aid, c.cameraId) ∈ (setCameras db aid (findCameras db0 org ids)).assocs))
        = (decide (c.cameraId ∈ (findCameras db0 org ids).map Camera.cameraId)) := by
    intro c _
    exact decide_eq_decide.mpr (mem_assocs_setCameras db aid c.cameraId (findCameras db0 org ids))
  rw [List.filter_congr hcongr]
  exact filter_mem_map_cameraId db0.cameras _ hnd

/-- Searching by a key that occurs in a unique-key list returns exactly the
row carrying that key. -/
theorem find?_anomaly_of_mem_nodup (l : List Anomaly) (a : Anomaly)
    (hnd : (l.map Anomaly.anomalyId).Nodup) (ha : a ∈ l) :
    l.find? (fun x => decide (x.anomalyId = a.anomalyId)) = some a := by
  have hex : (l.find? (fun x => decide (x.anomalyId = a.anomalyId))).isSome :=
    List.find?_isSome.mpr ⟨a, ha, by simp⟩
  obtain ⟨b, hb⟩ := Option.isSome_iff_exists.mp hex
  have hpb := List.find?_some hb
  have hbl := List.mem_of_find?_eq_some hb
  have hba : b = a :=
    List.inj_on_of_nodup_map hnd hbl ha (by simpa using hpb)
  rw [hb, hba]

/-- Unpacking of a successful organization-scoped rule lookup. -/
theorem findRuleOrg_some {db : DB} {org aid : Nat} {a : Anomaly}
    (h : findRuleOrg db org aid = some a) :
    a ∈ db.anomalies ∧ a.anomalyId = aid ∧ a.organizationId = org := by
  have hp := List.find?_some h
  have hm := List.mem_of_find?_eq_some h
  simp only [decide_eq_true_eq] at hp
  exact ⟨hm, hp.1, hp.2⟩

/-- Searching by primary key over a freshly appended row whose key is new. -/
theorem find?_append_fresh (l : List Anomaly) (a : Anomaly) (k : Nat)
    (hk : a.anomalyId = k)
    (hfresh : ∀ x ∈ l, x.anomalyId ≠ k) :
    (l ++ [a]).find? (fun x => decide (x.anomalyId = k)) = some a := by
  rw [List.find?_append]
  have hnone : l.find? (fun x => decide (x.anomalyId = k)) = none :=
    List.find?_eq_none.mpr (by intro x hx; simp [hfresh x hx])
  simp [hnone, hk]

/-- Saving the merged row and re-reading by primary key returns the
merged row (unique keys). -/
theorem findRule_saveAnomaly (db : DB) (aid : Nat) (merged a : Anomaly)
    (hnd : (db.anomalies.map Anomaly.anomalyId).Nodup)
    (ha : a ∈ db.anomalies) (haid : a.anomalyId = aid) (hm : merged.anomalyId = aid) :
    (saveAnomaly db aid merged).anomalies.find? (fun x => decide (x.anomalyId = aid))
      = some merged := by
  unfold saveAnomaly
  simp only
  rw [List.find?_map]
  have hpf : ((fun x => decide (x.anomalyId = aid)) ∘
      (fun x => if x.anomalyId = aid then merged else x))
        = (fun x : Anomaly => decide (x.anomalyId = aid)) := by
    funext x
    by_cases hx : x.anomalyId = aid <;> simp [Function.comp, hx, hm]
  rw [hpf]
  have hfind := find?_anomaly_of_mem_nodup db.anomalies a hnd ha
  rw [haid] at hfind
  rw [hfind]
  simp [haid]

/-- The successful create path in closed form: when every validation and
the ownership count check pass, `addAnomaly` inserts the rule row, binds
the resolved cameras and re-fetches by primary key. -/
theorem addAnomaly_happy (db : DB) (org : Nat) (b : AddBody)
    (hmiss : missingRequired b = false)
    (hne0 : ¬ ((b.cameraIds.getD []).length = 0))
    (hdays : daysValid (b.daysOfWeek.getD []) = true)
    (hcount : (findCameras db org (b.cameraIds.getD [])).length
        = (b.cameraIds.getD []).length) :
    addAnomaly db org b =
      (AddResult.created (findByPk (createdDB db org b) db.nextAnomalyId),
       createdDB db org b) := by
  simp only [addAnomaly, createdDB, newRuleOf]
  rw [if_neg (by simp [hmiss]), if_neg hne0, if_neg (by simp [hdays]),
      if_neg (by simp [hcount])]

/-- The failing ownership check on the create path: a resolution count
mismatch returns the 404 outcome with the store untouched. -/
theorem addAnomaly_mismatch (db : DB) (org : Nat) (b : AddBody)
    (hmiss : missingRequired b = false)
    (hne0 : ¬ ((b.cameraIds.getD []).length = 0))
    (hdays : daysValid (b.daysOfWeek.getD []) = true)
    (hcount : (findCameras db org (b.cameraIds.getD [])).length
        ≠ (b.cameraIds.getD []).length) :
    addAnomaly db org b = (AddResult.camerasNotFound, db) := by
  simp only [addAnomaly]
  rw [if_neg (by simp [hmiss]), if_neg hne0, if_neg (by simp [hdays]),
      if_pos hcount]

/-- The failing ownership check on the update path: with a supplied
camera list whose resolution count mismatches, `updateAnomaly` returns
the 404 outcome with the store untouched. -/
theorem updateAnomaly_mismatch (db : DB) (org aid : Nat) (b : UpdateBody)
    (ids : List Nat) (a : Anomaly)
    (hfind : findRuleOrg db org aid = some a)
    (hids : b.cameraIds = some ids)
    (hcount : (findCameras db org ids).length ≠ ids.length) :
    updateAnomaly db org aid b = (UpdateResult.camerasNotFound, db) := by
  simp only [updateAnomaly]
  rw [hfind, hids]
  simp only
  rw [if_pos hcount]


theorem newRuleOf_anomalyId (db : DB) (org : Nat) (b : AddBody) :
    (newRuleOf db org b).anomalyId = db.nextAnomalyId := rfl

/-- Re-fetching the freshly created rule by primary key returns exactly
the inserted row together with exactly the resolved cameras. -/
theorem findByPk_createdDB (db : DB) (org : Nat) (b : AddBody)
    (hwf : db.wf = true) :
    findByPk (createdDB db org b) db.nextAnomalyId
      = some (newRuleOf db org b, findCameras db org (b.cameraIds.getD [])) := by
  obtain ⟨hndc, _, hlt, _⟩ := wf_spec db hwf
  have hinc : includeCameras (createdDB db org b) db.nextAnomalyId
      = findCameras db org (b.cameraIds.getD []) := by
    simp only [createdDB]
    exact includeCameras_after_set db _ org db.nextAnomalyId (b.cameraIds.getD []) hndc rfl
  unfold findByPk
  have h1 : (createdDB db org b).anomalies
      = db.anomalies ++ [newRuleOf db org b] := rfl
  rw [h1]
  rw [find?_append_fresh db.anomalies (newRuleOf db org b) db.nextAnomalyId rfl
      (fun x hx => Nat.ne_of_lt (hlt x hx))]
  simp [newRuleOf_anomalyId, hinc]


theorem camIdsOf_saveAnomaly (db : DB) (aid aid2 : Nat) (m : Anomaly) :
    camIdsOf (saveAnomaly db aid2 m) aid = camIdsOf db aid := rfl

theorem mergeAnomaly_anomalyId (a : Anomaly) (b : UpdateBody) :
    (mergeAnomaly a b).anomalyId = a.anomalyId := rfl

theorem mergeAnomaly_schedule (a : Anomaly) (b : UpdateBody) :
    (mergeAnomaly a b).startTime = a.startTime ∧
    (mergeAnomaly a b).endTime = a.endTime ∧
    (mergeAnomaly a b).daysOfWeek = a.daysOfWeek :=
  ⟨rfl, rfl, rfl⟩

/-- The merged row field by field: a supplied value overwrites, an
absent/null one keeps the stored value. -/
theorem mergeAnomaly_fields (a : Anomaly) (b : UpdateBody) :
    (mergeAnomaly a b).title
        = (match b.title with | some v => v | none => a.title) ∧
    (mergeAnomaly a b).description
        = (match b.description with | some v => v | none => a.description) ∧
    (mergeAnomaly a b).criticality
        = (match b.criticality with | some v => some v | none => a.criticality) ∧
    (mergeAnomaly a b).modelName
        = (match b.modelName with | some v => v | none => a.modelName) ∧
    (mergeAnomaly a b).status
        = (match b.status with | some v => some v | none => a.status) := by
  refine ⟨?_, ?_, ?_, ?_, ?_⟩
  · cases hb : b.title <;> simp [mergeAnomaly, hb]
  · cases hb : b.description <;> simp [mergeAnomaly, hb]
  · cases hb : b.criticality <;> simp [mergeAnomaly, hb]
  · cases hb : b.modelName <;> simp [mergeAnomaly, hb]
  · cases hb : b.status <;> simp [mergeAnomaly, hb]

/-- The successful update path with a supplied camera list, in closed
form: rebind the camera set, save the merged row, re-fetch by key. -/
theorem updateAnomaly_happy_some (db : DB) (org aid : Nat) (b : UpdateBody)
    (ids : List Nat) (a : Anomaly)
    (hrule : findRuleOrg db org aid = some a)
    (hids : b.cameraIds = some ids)
    (hcount : (findCameras db org ids).length = ids.length) :
    updateAnomaly db org aid b =
      (UpdateResult.updated (findByPk
        (saveAnomaly (setCameras db aid (findCameras db org ids)) aid (mergeAnomaly a b)) aid),
       saveAnomaly (setCameras db aid (findCameras db org ids)) aid (mergeAnomaly a b)) := by
  simp only [updateAnomaly]
  rw [hrule, hids]
  simp only
  rw [if_neg (by simp [hcount])]

/-- The successful update path without a camera list, in closed form:
save the merged row, re-fetch by key. -/
theorem updateAnomaly_happy_none (db : DB) (org aid : Nat) (b : UpdateBody)
    (a : Anomaly)
    (hrule : findRuleOrg db org aid = some a)
    (hids : b.cameraIds = none) :
    updateAnomaly db org aid b =
      (UpdateResult.updated (findByPk (saveAnomaly db aid (mergeAnomaly a b)) aid),
       saveAnomaly db aid (mergeAnomaly a b)) := by
  simp only [updateAnomaly]
  rw [hrule, hids]

/-- Whatever path `updateAnomaly` takes, the stored rule rows afterwards
are either untouched or the original rows with the resolved rule's row
replaced by its merge with the request. -/
theorem updateAnomaly_anomalies_shape (db : DB) (org aid : Nat) (b : UpdateBody) :
    (updateAnomaly db org aid b).2.anomalies = db.anomalies ∨
    ∃ a ∈ db.anomalies, (updateAnomaly db org aid b).2.anomalies
      = db.anomalies.map (fun x => if x.anomalyId = aid then mergeAnomaly a b else x) := by
  cases hrule : findRuleOrg db org aid with
  | none =>
    left
    simp only [updateAnomaly]
    rw [hrule]
  | some a =>
    have ha := (findRuleOrg_some hrule).1
    cases hids : b.cameraIds with
    | none =>
      right
      refine ⟨a, ha, ?_⟩
      rw [updateAnomaly_happy_none db org aid b a hrule hids]
      rfl
    | some ids =>
      by_cases hcount : (findCameras db org ids).length = ids.length
      · right
        refine ⟨a, ha, ?_⟩
        rw [updateAnomaly_happy_some db org aid b ids a hrule hids hcount]
        rfl
      · left
        rw [updateAnomaly_mismatch db org aid b ids a hrule hids hcount]

/-- Rebuilding the camera table with a transformation that preserves
camera keys transforms the included rows of any rule pointwise. -/
theorem includeCameras_map_preserving (db : DB) (aid : Nat) (f : Camera → Camera)
    (hid : ∀ c, (f c).cameraId = c.cameraId) :
    includeCameras { db with cameras := db.cameras.map f } aid
      = (includeCameras db aid).map f := by
  unfold includeCameras
  simp only
  rw [List.filter_map]
  congr 1
  apply List.filter_congr
  intro c _
  simp [Function.comp, hid c]


/-! ### Claim theorems -/

/-- C6: a create request missing any of title, description, modelName,
cameraIds, startTime, endTime or daysOfWeek fails with the missing-field
error (HTTP 400) and leaves the store untouched — before the ownership or
schedule checks and before any storage call — and the required-field
guard does not consult criticality. -/
theorem C6_missing_required_field_rejected (db : DB) (org : Nat) (b : AddBody)
    (h : b.title = none ∨ b.description = none ∨ b.modelName = none ∨
         b.cameraIds = none ∨ b.startTime = none ∨ b.endTime = none ∨
         b.daysOfWeek = none) :
    addAnomaly db org b = (AddResult.missingFields, db) ∧
    AddResult.missingFields.statusCode = 400 ∧
    (∀ b2 : AddBody, ∀ c : Option String,
      missingRequired { b2 with criticality := c } = missingRequired b2) := by
  have hmiss : missingRequired b = true := by
    rcases h with h | h | h | h | h | h | h <;> simp [missingRequired, strFalsy, h]
  refine ⟨?_, rfl, fun b2 c => rfl⟩
  simp only [addAnomaly]
  rw [if_pos hmiss]

/-- C6 witness: evaluated at a concrete request missing its title. -/
theorem C6_missing_required_field_rejected_witness :
    addAnomaly wDB 7 { wAddBody with title := none } = (AddResult.missingFields, wDB) ∧
    AddResult.missingFields.statusCode = 400 ∧
    (∀ b2 : AddBody, ∀ c : Option String,
      missingRequired { b2 with criticality := c } = missingRequired b2) :=
  C6_missing_required_field_rejected wDB 7 { wAddBody with title := none }
    (Or.inl rfl)

/-- C7: a create request whose daysOfWeek contains a value outside the
7-value weekday domain is rejected with the invalid-day error (HTTP 400)
with the store untouched (no camera lookup, no rule persisted), while the
validator does not compare startTime with endTime: a concrete create with
an overnight window (start 23:00, end 01:00) succeeds with HTTP 201. -/
theorem C7_out_of_domain_day_rejected (db : DB) (org : Nat) (b : AddBody) (d : String)
    (hmiss : missingRequired b = false)
    (hne : b.cameraIds.getD [] ≠ [])
    (hd : d ∈ b.daysOfWeek.getD [])
    (hdom : d ∉ DAYS_OF_WEEK) :
    addAnomaly db org b = (AddResult.invalidDayValues, db) ∧
    AddResult.invalidDayValues.statusCode = 400 ∧
    (addAnomaly wDB 7 wOvernightBody).1.statusCode = 201 := by
  have hdays : ¬ (daysValid (b.daysOfWeek.getD []) = true) := by
    simp only [daysValid, List.all_eq_true, decide_eq_true_eq]
    intro hall
    exact hdom (hall d hd)
  refine ⟨?_, rfl, by decide⟩
  simp only [addAnomaly]
  rw [if_neg (by simp [hmiss]),
      if_neg (by simp [List.length_eq_zero, hne]),
      if_pos hdays]

/-- C7 witness: evaluated at a concrete request containing the
out-of-domain weekday value Funday. -/
theorem C7_out_of_domain_day_rejected_witness :
    addAnomaly wDB 7 { wAddBody with daysOfWeek := some ["Mon", "Funday"] }
      = (AddResult.invalidDayValues, wDB) ∧
    AddResult.invalidDayValues.statusCode = 400 ∧
    (addAnomaly wDB 7 wOvernightBody).1.statusCode = 201 :=
  C7_out_of_domain_day_rejected wDB 7
    { wAddBody with daysOfWeek := some ["Mon", "Funday"] } "Funday"
    (by decide) (by decide) (by decide) (by decide)

/-- C1: a create request that passes required-field validation, the
camera-array shape check and the weekday-domain check, and whose
requested camera keys all resolve against the acting organization (count
match), returns HTTP 201, and the camera set attached to the returned
rule is exactly the list of cameras resolved from the requested
cameraIds scoped to the organization — equal in count and membership. -/
theorem C1_valid_create_returns_exact_cameras (db : DB) (org : Nat) (b : AddBody)
    (hwf : db.wf = true)
    (hmiss : missingRequired b = false)
    (hne : b.cameraIds.getD [] ≠ [])
    (hdays : daysValid (b.daysOfWeek.getD []) = true)
    (hcount : (findCameras db org (b.cameraIds.getD [])).length
        = (b.cameraIds.getD []).length) :
    (addAnomaly db org b).1.statusCode = 201 ∧
    ∃ a : Anomaly, (addAnomaly db org b).1 =
      AddResult.created (some (a, findCameras db org (b.cameraIds.getD []))) := by
  have hne0 : ¬ ((b.cameraIds.getD []).length = 0) := by
    simp [List.length_eq_zero, hne]
  have h := addAnomaly_happy db org b hmiss hne0 hdays hcount
  have hfind := findByPk_createdDB db org b hwf
  constructor
  · rw [h]
    rfl
  · exact ⟨newRuleOf db org b, by rw [h]; simp [hfind]⟩

/-- C1 witness: evaluated at the concrete valid create request
`wAddBody` (cameras 1 and 2 of organization 7) against `wDB`. -/
theorem C1_valid_create_returns_exact_cameras_witness :
    (addAnomaly wDB 7 wAddBody).1.statusCode = 201 ∧
    ∃ a : Anomaly, (addAnomaly wDB 7 wAddBody).1 =
      AddResult.created (some (a, findCameras wDB 7 (wAddBody.cameraIds.getD []))) :=
  C1_valid_create_returns_exact_cameras wDB 7 wAddBody
    (by decide) (by decide) (by decide) (by decide) (by decide)

/-- C2: a create request in which some requested camera key resolves to
no camera owned by the acting organization (nonexistent, or owned by a
different organization) fails with the conflated not-found-or-forbidden
error (HTTP 404) and leaves the store completely unchanged: no rule row
and no association is persisted. -/
theorem C2_foreign_camera_create_404 (db : DB) (org : Nat) (b : AddBody) (x : Nat)
    (hwf : db.wf = true)
    (hmiss : missingRequired b = false)
    (hne : b.cameraIds.getD [] ≠ [])
    (hdays : daysValid (b.daysOfWeek.getD []) = true)
    (hx : x ∈ b.cameraIds.getD [])
    (hnores : ∀ c ∈ db.cameras, ¬ (c.cameraId = x ∧ c.organizationId = org)) :
    addAnomaly db org b = (AddResult.camerasNotFound, db) ∧
    AddResult.camerasNotFound.statusCode = 404 := by
  obtain ⟨hndc, _, _, _⟩ := wf_spec db hwf
  have hlt := findCameras_length_lt db org (b.cameraIds.getD []) x hndc hx hnores
  exact ⟨addAnomaly_mismatch db org b hmiss
      (by simp [List.length_eq_zero, hne]) hdays (Nat.ne_of_lt hlt), rfl⟩

/-- C2 witness: evaluated at a concrete create request of organization 7
referencing camera 99, which belongs to organization 3. -/
theorem C2_foreign_camera_create_404_witness :
    addAnomaly wDB 7 { wAddBody with cameraIds := some [1, 99] }
      = (AddResult.camerasNotFound, wDB) ∧
    AddResult.camerasNotFound.statusCode = 404 :=
  C2_foreign_camera_create_404 wDB 7 { wAddBody with cameraIds := some [1, 99] } 99
    (by decide) (by decide) (by decide) (by decide) (by decide) (by decide)

/-- C10: a create or update request whose cameraIds contains a duplicated
key fails the resolution count check and returns the 404 outcome with
the store unchanged, even when every distinct requested key resolves to
a camera owned by the acting organization: duplicates are rejected by
count mismatch, not deduplicated. -/
theorem C10_duplicate_camera_ids_404 (db : DB) (org aid : Nat)
    (ab : AddBody) (ub : UpdateBody) (ids : List Nat) (a : Anomaly)
    (hwf : db.wf = true)
    (hdup : ¬ ids.Nodup)
    (_hres : ∀ x ∈ ids, ∃ c ∈ db.cameras, c.cameraId = x ∧ c.organizationId = org)
    (hab : ab.cameraIds = some ids)
    (hmiss : missingRequired ab = false)
    (hdays : daysValid (ab.daysOfWeek.getD []) = true)
    (hub : ub.cameraIds = some ids)
    (hrule : findRuleOrg db org aid = some a) :
    addAnomaly db org ab = (AddResult.camerasNotFound, db) ∧
    updateAnomaly db org aid ub = (UpdateResult.camerasNotFound, db) ∧
    AddResult.camerasNotFound.statusCode = 404 ∧
    UpdateResult.camerasNotFound.statusCode = 404 := by
  obtain ⟨hndc, _, _, _⟩ := wf_spec db hwf
  have hcount := findCameras_length_ne_of_dup db org ids hndc hdup
  have hne0 : ¬ (ids.length = 0) := by
    intro h0
    rw [List.length_eq_zero] at h0
    rw [h0] at hdup
    exact hdup List.nodup_nil
  have hgetd : ab.cameraIds.getD [] = ids := by rw [hab]; rfl
  refine ⟨?_, updateAnomaly_mismatch db org aid ub ids a hrule hub hcount, rfl, rfl⟩
  exact addAnomaly_mismatch db org ab hmiss (by rw [hgetd]; exact hne0) hdays
    (by rw [hgetd]; exact hcount)

/-- C10 witness: evaluated at concrete create and update requests whose
camera list [1, 1] duplicates the organization-owned camera 1. -/
theorem C10_duplicate_camera_ids_404_witness :
    addAnomaly wDB 7 { wAddBody with cameraIds := some [1, 1] }
      = (AddResult.camerasNotFound, wDB) ∧
    updateAnomaly wDB 7 5 { wUpdNone with cameraIds := some [1, 1] }
      = (UpdateResult.camerasNotFound, wDB) ∧
    AddResult.camerasNotFound.statusCode = 404 ∧
    UpdateResult.camerasNotFound.statusCode = 404 :=
  C10_duplicate_camera_ids_404 wDB 7 5
    { wAddBody with cameraIds := some [1, 1] }
    { wUpdNone with cameraIds := some [1, 1] } [1, 1] wRule
    (by decide) (by decide) (by decide) (by decide) (by decide) (by decide)
    (by decide) (by decide)

/-- C3: an update that supplies a camera list whose keys all resolve to
cameras owned by the acting organization leaves the rule's association
set exactly equal to the supplied set: a permutation of the supplied
keys, with every old association not in the new set removed, no
duplicates remaining, and the call succeeding. -/
theorem C3_update_rebinds_exact_set (db : DB) (org aid : Nat) (b : UpdateBody)
    (ids : List Nat) (a : Anomaly)
    (hwf : db.wf = true)
    (hids : b.cameraIds = some ids)
    (hrule : findRuleOrg db org aid = some a)
    (hcount : (findCameras db org ids).length = ids.length) :
    List.Perm (camIdsOf (updateAnomaly db org aid b).2 aid) ids ∧
    (camIdsOf (updateAnomaly db org aid b).2 aid).Nodup ∧
    (∀ x : Nat, x ∈ camIdsOf (updateAnomaly db org aid b).2 aid ↔ x ∈ ids) ∧
    ∃ r, (updateAnomaly db org aid b).1 = UpdateResult.updated r := by
  obtain ⟨hndc, _, _, _⟩ := wf_spec db hwf
  have hstep := updateAnomaly_happy_some db org aid b ids a hrule hids hcount
  have hcam : camIdsOf (updateAnomaly db org aid b).2 aid
      = (findCameras db org ids).map Camera.cameraId := by
    rw [hstep]
    show camIdsOf (saveAnomaly (setCameras db aid (findCameras db org ids)) aid
      (mergeAnomaly a b)) aid = (findCameras db org ids).map Camera.cameraId
    rw [camIdsOf_saveAnomaly, camIdsOf_setCameras]
  have hnd := findCameras_map_nodup db org ids hndc
  have hsub : (findCameras db org ids).map Camera.cameraId ⊆ ids := by
    intro y hy
    exact findCameras_map_subset db org ids y hy
  have hperm : List.Perm ((findCameras db org ids).map Camera.cameraId) ids :=
    (hnd.subperm hsub).perm_of_length_le (by rw [List.length_map]; omega)
  refine ⟨?_, ?_, ?_, ⟨_, by rw [hstep]⟩⟩
  · rw [hcam]
    exact hperm
  · rw [hcam]
    exact hnd
  · intro x
    rw [hcam]
    exact hperm.mem_iff

/-- C3 witness: rule 5 of organization 7, previously bound to camera 1,
rebound to exactly camera 2. -/
theorem C3_update_rebinds_exact_set_witness :
    List.Perm (camIdsOf (updateAnomaly wDB 7 5 { wUpdNone with cameraIds := some [2] }).2 5) [2] ∧
    (camIdsOf (updateAnomaly wDB 7 5 { wUpdNone with cameraIds := some [2] }).2 5).Nodup ∧
    (∀ x : Nat, x ∈ camIdsOf (updateAnomaly wDB 7 5 { wUpdNone with cameraIds := some [2] }).2 5
      ↔ x ∈ [2]) ∧
    ∃ r, (updateAnomaly wDB 7 5 { wUpdNone with cameraIds := some [2] }).1
      = UpdateResult.updated r :=
  C3_update_rebinds_exact_set wDB 7 5 { wUpdNone with cameraIds := some [2] } [2] wRule
    (by decide) rfl (by decide) (by decide)

/-- C4 counterexample to the claim as stated: `wDB` holds rule 5 owned by
organization 7 with title old; the update request on that existing,
organization-owned rule supplies title new together with cameraIds [99]
(camera 99 belongs to organization 3), and after the call the stored
title is still old — a supplied field did not take the supplied value. -/
theorem C4_counterexample :
    (findRuleOrg wDB 7 5).isSome = true ∧
    ({ wUpdNone with title := some "new", cameraIds := some [99] } : UpdateBody).title
      = some "new" ∧
    ((updateAnomaly wDB 7 5
        { wUpdNone with title := some "new", cameraIds := some [99] }).2.anomalies.map
      Anomaly.title = ["old"]) := by
  decide

/-- C4 (amended): for every update request on an existing rule owned by
the acting organization that does not fail the camera-ownership check
(cameraIds absent, or supplied and fully resolving), the stored rule
afterwards has, for each of title, description, criticality, modelName
and status, the supplied value when the request supplies one and the
prior stored value when the request omits it (absent/null). -/
theorem C4_update_merges_supplied_fields (db : DB) (org aid : Nat) (b : UpdateBody)
    (a : Anomaly)
    (hwf : db.wf = true)
    (hrule : findRuleOrg db org aid = some a)
    (hcams : b.cameraIds = none ∨
      ∃ ids, b.cameraIds = some ids ∧ (findCameras db org ids).length = ids.length) :
    ∃ a2 : Anomaly,
      (updateAnomaly db org aid b).2.anomalies.find? (fun x => decide (x.anomalyId = aid))
        = some a2 ∧
      a2.title = (match b.title with | some v => v | none => a.title) ∧
      a2.description = (match b.description with | some v => v | none => a.description) ∧
      a2.criticality = (match b.criticality with | some v => some v | none => a.criticality) ∧
      a2.modelName = (match b.modelName with | some v => v | none => a.modelName) ∧
      a2.status = (match b.status with | some v => some v | none => a.status) ∧
      ∃ r, (updateAnomaly db org aid b).1 = UpdateResult.updated r := by
  obtain ⟨_, hnda, _, _⟩ := wf_spec db hwf
  obtain ⟨ha, haid, _⟩ := findRuleOrg_some hrule
  obtain ⟨hf1, hf2, hf3, hf4, hf5⟩ := mergeAnomaly_fields a b
  rcases hcams with hnone | ⟨ids, hids, hcount⟩
  · have hstep := updateAnomaly_happy_none db org aid b a hrule hnone
    refine ⟨mergeAnomaly a b, ?_, hf1, hf2, hf3, hf4, hf5, ⟨_, by rw [hstep]⟩⟩
    rw [hstep]
    exact findRule_saveAnomaly db aid (mergeAnomaly a b) a hnda ha haid
      (by rw [mergeAnomaly_anomalyId, haid])
  · have hstep := updateAnomaly_happy_some db org aid b ids a hrule hids hcount
    refine ⟨mergeAnomaly a b, ?_, hf1, hf2, hf3, hf4, hf5, ⟨_, by rw [hstep]⟩⟩
    rw [hstep]
    exact findRule_saveAnomaly (setCameras db aid (findCameras db org ids)) aid
      (mergeAnomaly a b) a hnda ha haid (by rw [mergeAnomaly_anomalyId, haid])

/-- C4 witness: updating rule 5 of organization 7 with only a new
criticality keeps title, description, modelName and status and applies
the supplied criticality. -/
theorem C4_update_merges_supplied_fields_witness :
    ∃ a2 : Anomaly,
      (updateAnomaly wDB 7 5 { wUpdNone with criticality := some "high" }).2.anomalies.find?
          (fun x => decide (x.anomalyId = 5)) = some a2 ∧
      a2.title = (match ({ wUpdNone with criticality := some "high" } : UpdateBody).title with
        | some v => v | none => wRule.title) ∧
      a2.description = (match ({ wUpdNone with criticality := some "high" } : UpdateBody).description with
        | some v => v | none => wRule.description) ∧
      a2.criticality = (match ({ wUpdNone with criticality := some "high" } : UpdateBody).criticality with
        | some v => some v | none => wRule.criticality) ∧
      a2.modelName = (match ({ wUpdNone with criticality := some "high" } : UpdateBody).modelName with
        | some v => v | none => wRule.modelName) ∧
      a2.status = (match ({ wUpdNone with criticality := some "high" } : UpdateBody).status with
        | some v => some v | none => wRule.status) ∧
      ∃ r, (updateAnomaly wDB 7 5 { wUpdNone with criticality := some "high" }).1
        = UpdateResult.updated r :=
  C4_update_merges_supplied_fields wDB 7 5 { wUpdNone with criticality := some "high" } wRule
    (by decide) (by decide) (Or.inl rfl)

/-- C5: deleting a rule owned by the acting organization clears all of
its camera associations in a first phase, while the rule row still
exists, and destroys the rule row only afterwards; referential integrity
of the join table holds at the intermediate point and at the end, no
camera's rule list contains the deleted rule afterwards, and deleting an
absent or foreign rule returns the not-found error (HTTP 404) with the
store unchanged. -/
theorem C5_delete_unbinds_then_destroys (db : DB) (org aid : Nat) (a : Anomaly)
    (hwf : db.wf = true)
    (hrule : findRuleOrg db org aid = some a) :
    (deleteAnomaly db org aid).1 = DeleteResult.deleted ∧
    DeleteResult.deleted.statusCode = 200 ∧
    camIdsOf (deleteUnbind db aid) aid = [] ∧
    (∀ p ∈ (deleteUnbind db aid).assocs,
       ∃ r ∈ (deleteUnbind db aid).anomalies, r.anomalyId = p.1) ∧
    (∀ p ∈ (deleteAnomaly db org aid).2.assocs,
       ∃ r ∈ (deleteAnomaly db org aid).2.anomalies, r.anomalyId = p.1) ∧
    (∀ cid : Nat, ∀ r ∈ rulesForCamera (deleteAnomaly db org aid).2 cid, r.anomalyId ≠ aid) ∧
    (∀ db0 : DB, ∀ org0 aid0 : Nat, findRuleOrg db0 org0 aid0 = none →
       deleteAnomaly db0 org0 aid0 = (DeleteResult.notFound, db0) ∧
       DeleteResult.notFound.statusCode = 404) := by
  obtain ⟨_, _, _, hassoc⟩ := wf_spec db hwf
  obtain ⟨ha, haid, _⟩ := findRuleOrg_some hrule
  have hstep : deleteAnomaly db org aid =
      (DeleteResult.deleted, deleteDestroy (deleteUnbind db aid) aid) := by
    simp only [deleteAnomaly]
    rw [hrule]
    simp only
    rw [haid]
  refine ⟨by rw [hstep], rfl, ?_, ?_, ?_, ?_, ?_⟩
  · simp only [deleteUnbind]
    rw [camIdsOf_setCameras]
    rfl
  · intro p hp
    simp only [deleteUnbind, setCameras, List.map_nil, List.append_nil,
      List.mem_filter, decide_eq_true_eq] at hp
    obtain ⟨r, hr, hrid⟩ := hassoc p hp.1
    exact ⟨r, hr, hrid⟩
  · rw [hstep]
    intro p hp
    simp only [deleteDestroy, deleteUnbind, setCameras, List.map_nil,
      List.append_nil, List.mem_filter, decide_eq_true_eq] at hp
    obtain ⟨r, hr, hrid⟩ := hassoc p hp.1
    refine ⟨r, ?_, hrid⟩
    simp only [deleteDestroy, deleteUnbind, setCameras, List.mem_filter,
      decide_eq_true_eq]
    exact ⟨hr, by rw [hrid]; exact hp.2⟩
  · rw [hstep]
    intro cid r hr
    simp only [rulesForCamera, deleteDestroy, deleteUnbind, setCameras,
      List.mem_filter, decide_eq_true_eq] at hr
    exact hr.1.2
  · intro db0 org0 aid0 h0
    constructor
    · simp only [deleteAnomaly]
      rw [h0]
    · rfl

/-- C5 witness: deleting rule 5 of organization 7 from `wDB`. -/
theorem C5_delete_unbinds_then_destroys_witness :
    (deleteAnomaly wDB 7 5).1 = DeleteResult.deleted ∧
    DeleteResult.deleted.statusCode = 200 ∧
    camIdsOf (deleteUnbind wDB 5) 5 = [] ∧
    (∀ p ∈ (deleteUnbind wDB 5).assocs,
       ∃ r ∈ (deleteUnbind wDB 5).anomalies, r.anomalyId = p.1) ∧
    (∀ p ∈ (deleteAnomaly wDB 7 5).2.assocs,
       ∃ r ∈ (deleteAnomaly wDB 7 5).2.anomalies, r.anomalyId = p.1) ∧
    (∀ cid : Nat, ∀ r ∈ rulesForCamera (deleteAnomaly wDB 7 5).2 cid, r.anomalyId ≠ 5) ∧
    (∀ db0 : DB, ∀ org0 aid0 : Nat, findRuleOrg db0 org0 aid0 = none →
       deleteAnomaly db0 org0 aid0 = (DeleteResult.notFound, db0) ∧
       DeleteResult.notFound.statusCode = 404) :=
  C5_delete_unbinds_then_destroys wDB 7 5 wRule (by decide) (by decide)

/-- C8: listing rules returns exactly the acting organization's rules,
each camera attached to a rule is the public projection (identifier,
location, network address, type) of an associated stored camera, the
projection is fully determined by those four attributes, and the listing
output is invariant under any rewrite of the camera table that preserves
those four attributes — in particular the online/offline status is not
exposed. -/
theorem C8_list_returns_org_rules_public_cameras (db : DB) (org : Nat) :
    ((getAllAnomalies db org).map Prod.fst
      = db.anomalies.filter (fun a => decide (a.organizationId = org))) ∧
    (∀ a ∈ db.anomalies, a.organizationId = org →
      a ∈ (getAllAnomalies db org).map Prod.fst) ∧
    (∀ pr ∈ getAllAnomalies db org, pr.1.organizationId = org ∧
      pr.2 = (includeCameras db pr.1.anomalyId).map Camera.publicView ∧
      ∀ pc ∈ pr.2, ∃ c ∈ db.cameras,
        (pr.1.anomalyId, c.cameraId) ∈ db.assocs ∧ pc = Camera.publicView c) ∧
    (∀ c1 c2 : Camera, c1.cameraId = c2.cameraId → c1.location = c2.location →
      c1.ipAddress = c2.ipAddress → c1.cameraType = c2.cameraType →
      Camera.publicView c1 = Camera.publicView c2) ∧
    (∀ f : Camera → Camera,
      (∀ c, (f c).cameraId = c.cameraId ∧ (f c).location = c.location ∧
            (f c).ipAddress = c.ipAddress ∧ (f c).cameraType = c.cameraType) →
      getAllAnomalies { db with cameras := db.cameras.map f } org
        = getAllAnomalies db org) := by
  have h1 : (getAllAnomalies db org).map Prod.fst
      = db.anomalies.filter (fun a => decide (a.organizationId = org)) := by
    unfold getAllAnomalies
    rw [List.map_map]
    have hfst : (Prod.fst ∘ fun a : Anomaly =>
        (a, (includeCameras db a.anomalyId).map Camera.publicView)) = id := by
      funext a
      rfl
    rw [hfst, List.map_id]
  refine ⟨h1, ?_, ?_, ?_, ?_⟩
  · intro a ha horg
    rw [h1]
    exact List.mem_filter.mpr ⟨ha, by simp [horg]⟩
  · intro pr hpr
    simp only [getAllAnomalies, List.mem_map] at hpr
    obtain ⟨a, ha, hpa⟩ := hpr
    obtain ⟨hal, haf⟩ := List.mem_filter.mp ha
    subst hpa
    refine ⟨by simpa using haf, rfl, ?_⟩
    intro pc hpc
    simp only [List.mem_map] at hpc
    obtain ⟨c, hc, hcp⟩ := hpc
    obtain ⟨hcl, hca⟩ := List.mem_filter.mp hc
    exact ⟨c, hcl, by simpa using hca, hcp.symm⟩
  · intro c1 c2 hid hloc hip htyp
    simp [Camera.publicView, hid, hloc, hip, htyp]
  · intro f hf
    simp only [getAllAnomalies]
    apply List.map_congr_left
    intro a _
    have hinc := includeCameras_map_preserving db a.anomalyId f (fun c => (hf c).1)
    refine congrArg (fun l => (a, l)) ?_
    rw [hinc, List.map_map]
    apply List.map_congr_left
    intro c _
    simp only [Function.comp]
    simp [Camera.publicView, (hf c).1, (hf c).2.1, (hf c).2.2.1, (hf c).2.2.2]

/-- C8 witness: the listing properties evaluated at the concrete store
`wDB` for organization 7. -/
theorem C8_list_returns_org_rules_public_cameras_witness :
    ((getAllAnomalies wDB 7).map Prod.fst
      = wDB.anomalies.filter (fun a => decide (a.organizationId = 7))) ∧
    (∀ a ∈ wDB.anomalies, a.organizationId = 7 →
      a ∈ (getAllAnomalies wDB 7).map Prod.fst) ∧
    (∀ pr ∈ getAllAnomalies wDB 7, pr.1.organizationId = 7 ∧
      pr.2 = (includeCameras wDB pr.1.anomalyId).map Camera.publicView ∧
      ∀ pc ∈ pr.2, ∃ c ∈ wDB.cameras,
        (pr.1.anomalyId, c.cameraId) ∈ wDB.assocs ∧ pc = Camera.publicView c) ∧
    (∀ c1 c2 : Camera, c1.cameraId = c2.cameraId → c1.location = c2.location →
      c1.ipAddress = c2.ipAddress → c1.cameraType = c2.cameraType →
      Camera.publicView c1 = Camera.publicView c2) ∧
    (∀ f : Camera → Camera,
      (∀ c, (f c).cameraId = c.cameraId ∧ (f c).location = c.location ∧
            (f c).ipAddress = c.ipAddress ∧ (f c).cameraType = c.cameraType) →
      getAllAnomalies { wDB with cameras := wDB.cameras.map f } 7
        = getAllAnomalies wDB 7) :=
  C8_list_returns_org_rules_public_cameras wDB 7

/-- C9: the update handler never reads the schedule fields of the
request: its outcome is unchanged under any replacement of the request's
startTime, endTime and daysOfWeek, and every stored rule row after an
update keeps the startTime, endTime and daysOfWeek of its pre-update
row — the schedule cannot be modified through update. -/
theorem C9_update_never_changes_schedule (db : DB) (org aid : Nat) (b : UpdateBody)
    (s e : Option String) (ds : Option (List String)) :
    updateAnomaly db org aid b
      = updateAnomaly db org aid { b with startTime := s, endTime := e, daysOfWeek := ds } ∧
    ∀ a2 ∈ (updateAnomaly db org aid b).2.anomalies,
      ∃ a ∈ db.anomalies, a2.anomalyId = a.anomalyId ∧ a2.startTime = a.startTime ∧
        a2.endTime = a.endTime ∧ a2.daysOfWeek = a.daysOfWeek := by
  constructor
  · rfl
  · intro a2 ha2
    rcases updateAnomaly_anomalies_shape db org aid b with hsh | ⟨a, ha, hsh⟩
    · rw [hsh] at ha2
      exact ⟨a2, ha2, rfl, rfl, rfl, rfl⟩
    · rw [hsh] at ha2
      simp only [List.mem_map] at ha2
      obtain ⟨x, hx, hxa⟩ := ha2
      by_cases hxid : x.anomalyId = aid
      · rw [if_pos hxid] at hxa
        subst hxa
        exact ⟨a, ha, rfl, rfl, rfl, rfl⟩
      · rw [if_neg hxid] at hxa
        subst hxa
        exact ⟨x, hx, rfl, rfl, rfl, rfl⟩

/-- C9 witness: evaluated at a concrete update request whose body also
carries replacement schedule values, which the handler ignores. -/
theorem C9_update_never_changes_schedule_witness :
    updateAnomaly wDB 7 5 { wUpdNone with title := some "x" }
      = updateAnomaly wDB 7 5 { { wUpdNone with title := some "x" } with
          startTime := some "00:00", endTime := some "23:59", daysOfWeek := some ["Sun"] } ∧
    ∀ a2 ∈ (updateAnomaly wDB 7 5 { wUpdNone with title := some "x" }).2.anomalies,
      ∃ a ∈ wDB.anomalies, a2.anomalyId = a.anomalyId ∧ a2.startTime = a.startTime ∧
        a2.endTime = a.endTime ∧ a2.daysOfWeek = a.daysOfWeek :=
  C9_update_never_changes_schedule wDB 7 5 { wUpdNone with title := some "x" }
    (some "00:00") (some "23:59") (some ["Sun"])
